import Mathlib

/-!
Verification of the searcher service (cmd/searcher/main.go) and its
archive-cache specification.

The Go source is embedded shallowly: pure control flow becomes Lean
functions, the remote gitserver transport becomes an explicit function
parameter, effectful phases (fetch invocations, store start, server
listen) are recorded as explicit counters or event lists, and Go int64
arithmetic is modelled over `Int` with explicit two's-complement
wrap-around.
-/

namespace Searcher

/-- Errors reported by the vcs layer for a failed gitserver command.
Mirrors the conditions tested in fetchTar: vcs.IsRepoNotExist(err),
err == vcs.ErrRevisionNotFound, and anything else. -/
inductive VcsError where
  | repoNotExist (msg : String)
  | revisionNotFound
  | other (msg : String)
deriving DecidableEq

/-- The message of a vcs error, as Go err.Error() would render it. -/
def VcsError.message : VcsError → String
  | .repoNotExist m => m
  | .revisionNotFound => "revision not found"
  | .other m => m

/-- Models vcs.IsRepoNotExist. -/
def vcsIsRepoNotExist : VcsError → Bool
  | .repoNotExist _ => true
  | _ => false

/-- Models err == vcs.ErrRevisionNotFound. -/
def vcsIsRevisionNotFound : VcsError → Bool
  | .revisionNotFound => true
  | _ => false

/-- The stream handle returned on a successful fetch (io.ReadCloser). -/
structure ReadCloser where
  id : Nat
deriving DecidableEq

/-- Errors returned by fetchTar: either the badRequestError type declared
in main.go (whose BadRequest() method returns true, marking it a
client-caused error), or an unchanged transport error. -/
inductive FetchTarError where
  | badRequest (msg : String)
  | transport (e : VcsError)
deriving DecidableEq

/-- Models the BadRequest() bool method: true exactly on badRequestError.
A transport error passed through unchanged does not implement it. -/
def FetchTarError.isBadRequest : FetchTarError → Bool
  | .badRequest _ => true
  | .transport _ => false

/-- The gitserver command constructed by fetchTar:
gitserver.DefaultClient.Command("git", "archive", "--format=tar", commit)
with cmd.Repo = repo and cmd.EnsureRevision = commit. -/
structure GitCommand where
  name : String
  args : List String
  repo : String
  ensureRevision : String
deriving DecidableEq

/-- The archive command fetchTar issues for a (repo, commit) pair. -/
def archiveCommand (repo commit : String) : GitCommand :=
  { name := "git"
    args := ["archive", "--format=tar", commit]
    repo := repo
    ensureRevision := commit }

/-- Models strings.HasPrefix(s, "-"): since "-" is a single ASCII byte,
this is exactly the test that the first character of s is a hyphen. -/
def startsWithDash (s : String) : Bool :=
  match s.data with
  | [] => false
  | c :: _ => c = '-'

/-- Shallow embedding of fetchTar from cmd/searcher/main.go.  The remote
transport (gitserver.StdoutReader) is passed in as a function from the
constructed command to its result.  The second component counts how many
times the transport was invoked (zero or one), so that "performs zero
fetch invocations" is a provable statement.

Control flow of the source:
1. if strings.HasPrefix(string(commit), "-") return badRequestError, no
   command issued;
2. otherwise run the archive command; on error, if
   vcs.IsRepoNotExist(err) or err == vcs.ErrRevisionNotFound, wrap the
   message in badRequestError, else return the error unchanged;
3. on success return the reader. -/
def fetchTar (repo commit : String)
    (transport : GitCommand → Except VcsError ReadCloser) :
    Except FetchTarError ReadCloser × Nat :=
  if startsWithDash commit then
    (Except.error (.badRequest "invalid git revision spec (begins with -)"), 0)
  else
    match transport (archiveCommand repo commit) with
    | .error e =>
      if vcsIsRepoNotExist e || vcsIsRevisionNotFound e then
        (Except.error (.badRequest e.message), 1)
      else
        (Except.error (.transport e), 1)
    | .ok r => (Except.ok r, 1)

end Searcher

namespace Searcher

/-- C1: a commit identifier beginning with a hyphen is rejected as a
client/BadRequest error and the transport is never invoked: fetchTar
returns before constructing or issuing the git archive command. -/
theorem fetchTar_rejects_flag_like_commit
    (repo commit : String)
    (transport : GitCommand → Except VcsError ReadCloser)
    (h : startsWithDash commit = true) :
    (∃ msg, (fetchTar repo commit transport).1 = Except.error (.badRequest msg)) ∧
    (fetchTar repo commit transport).2 = 0 := by
  unfold fetchTar
  rw [h]
  exact ⟨⟨_, rfl⟩, rfl⟩

/-- Witness for C1: the concrete commit "-rev" is rejected with a bad
request and zero transport invocations, for an arbitrary transport. -/
theorem fetchTar_rejects_flag_like_commit_witness :
    startsWithDash "-rev" = true ∧
    ((∃ msg, (fetchTar "r" "-rev" (fun _ => Except.ok ⟨0⟩)).1 =
        Except.error (.badRequest msg)) ∧
      (fetchTar "r" "-rev" (fun _ => Except.ok ⟨0⟩)).2 = 0) :=
  ⟨by decide,
    fetchTar_rejects_flag_like_commit "r" "-rev" (fun _ => Except.ok ⟨0⟩) (by decide)⟩

/-- C2: when the transport reports repository-not-exist or
revision-not-found, fetchTar returns the condition wrapped in
badRequestError — the client-caused, non-retryable error kind (its
BadRequest() method reports true) — carrying the upstream message. -/
theorem fetchTar_not_found_is_client_error
    (repo commit : String)
    (transport : GitCommand → Except VcsError ReadCloser)
    (e : VcsError)
    (hpre : startsWithDash commit = false)
    (htr : transport (archiveCommand repo commit) = Except.error e)
    (hnf : vcsIsRepoNotExist e = true ∨ vcsIsRevisionNotFound e = true) :
    (fetchTar repo commit transport).1 = Except.error (.badRequest e.message) ∧
    ∀ err, (fetchTar repo commit transport).1 = Except.error err →
      err.isBadRequest = true := by
  unfold fetchTar
  rw [hpre]
  simp only [Bool.if_false_left, Bool.if_true_left, htr]
  have : (vcsIsRepoNotExist e || vcsIsRevisionNotFound e) = true := by
    rcases hnf with h | h <;> simp [h]
  rw [this]
  refine ⟨rfl, ?_⟩
  intro err herr
  rw [show err = FetchTarError.badRequest e.message from (Except.error.inj herr.symm)]
  rfl

/-- Witness for C2: a transport that reports repository-not-exist makes
fetchTar return a badRequest (client) error with the same message. -/
theorem fetchTar_not_found_is_client_error_witness :
    (fetchTar "r" "c" (fun _ => Except.error (.repoNotExist "repo r not found"))).1 =
      Except.error (.badRequest (VcsError.message (.repoNotExist "repo r not found"))) ∧
    ∀ err, (fetchTar "r" "c"
        (fun _ => Except.error (.repoNotExist "repo r not found"))).1 =
        Except.error err → err.isBadRequest = true :=
  fetchTar_not_found_is_client_error "r" "c"
    (fun _ => Except.error (.repoNotExist "repo r not found"))
    (.repoNotExist "repo r not found") (by decide) rfl (Or.inl (by decide))

/-- C3: a transport failure that is neither repository-not-exist nor
revision-not-found is returned unchanged as a transport (server-side)
error, not wrapped as a client/BadRequest error. -/
theorem fetchTar_other_error_not_wrapped
    (repo commit : String)
    (transport : GitCommand → Except VcsError ReadCloser)
    (e : VcsError)
    (hpre : startsWithDash commit = false)
    (htr : transport (archiveCommand repo commit) = Except.error e)
    (h1 : vcsIsRepoNotExist e = false)
    (h2 : vcsIsRevisionNotFound e = false) :
    (fetchTar repo commit transport).1 = Except.error (.transport e) ∧
    ∀ err, (fetchTar repo commit transport).1 = Except.error err →
      err.isBadRequest = false := by
  unfold fetchTar
  rw [hpre]
  simp only [Bool.if_false_left, Bool.if_true_left, htr, h1, h2]
  constructor
  · rfl
  · intro err herr
    have : err = .transport e := by
      simpa using herr.symm
    rw [this]
    rfl

/-- Witness for C3: a generic network failure surfaces unchanged and is
not of the BadRequest kind. -/
theorem fetchTar_other_error_not_wrapped_witness :
    (fetchTar "r" "c" (fun _ => Except.error (.other "connection reset"))).1 =
      Except.error (.transport (.other "connection reset")) ∧
    ∀ err, (fetchTar "r" "c"
        (fun _ => Except.error (.other "connection reset"))).1 =
        Except.error err → err.isBadRequest = false :=
  fetchTar_other_error_not_wrapped "r" "c"
    (fun _ => Except.error (.other "connection reset"))
    (.other "connection reset") (by decide) rfl (by decide) (by decide)

end Searcher

namespace Searcher

/-- Signed 64-bit range bound: 2^63. -/
def twoPow63 : Int := 9223372036854775808

/-- Two's-complement wrap of an integer into the signed 64-bit range,
modelling Go int64 arithmetic results. -/
def wrapInt64 (x : Int) : Int :=
  (x + twoPow63) % (2 * twoPow63) - twoPow63

/-- Value of a list of decimal digit characters, most significant first. -/
def decimalValue (ds : List Char) : Nat :=
  ds.foldl (fun n c => n * 10 + (c.toNat - 48)) 0

/-- Models Go strconv.ParseInt(s, 10, 64): an optional single leading
sign, then one or more decimal digits, value within the signed 64-bit
range.  Returns none exactly when Go returns a non-nil error (syntax or
range), which main treats as fatal. -/
def parseInt64 (s : String) : Option Int :=
  let core : List Char → Bool → Option Int := fun ds neg =>
    if ds = [] then none
    else if ds.all Char.isDigit then
      let n : Nat := decimalValue ds
      if neg then
        if (n : Int) ≤ twoPow63 then some (-(n : Int)) else none
      else
        if (n : Int) ≤ twoPow63 - 1 then some (n : Int) else none
    else none
  match s.data with
  | [] => none
  | c :: rest =>
    if c = '-' then core rest true
    else if c = '+' then core rest false
    else core (c :: rest) false

/-- Models the Go int64 computation cacheSizeBytes = i * 1000 * 1000
from main.go, where each multiplication wraps in 64 bits. -/
def computeCacheSizeBytes (i : Int) : Int :=
  wrapInt64 (wrapInt64 (i * 1000) * 1000)

/-- The search.Store configuration that main constructs. -/
structure StoreConfig where
  path : String
  maxCacheSizeBytes : Int
  maxConcurrentFetchTar : Nat
deriving DecidableEq

/-- Effectful phases of main that happen after configuration parsing:
starting the store (service.Store.Start()) and the HTTP server beginning
to accept requests (server.ListenAndServe). -/
inductive StartupEvent where
  | storeStart
  | serverListen
deriving DecidableEq

/-- Shallow embedding of the startup portion of main from
cmd/searcher/main.go: parse SEARCHER_CACHE_SIZE_MB; on parse failure
log.Fatalf terminates the process (error result, no events); otherwise
build the store configuration (cache path under the cache directory,
size bound in bytes, fetch concurrency of 10 per gitserver address),
start the store, then listen.  The event list records, in order, the
effectful phases that were reached. -/
def mainStartup (cacheSizeMB : String) (gitserverAddrs : List String)
    (cacheDir : String) : Except String StoreConfig × List StartupEvent :=
  match parseInt64 cacheSizeMB with
  | none =>
    (Except.error ("invalid int for SEARCHER_CACHE_SIZE_MB: " ++ cacheSizeMB), [])
  | some i =>
    let store : StoreConfig :=
      { path := cacheDir ++ "/searcher-archives"
        maxCacheSizeBytes := computeCacheSizeBytes i
        maxConcurrentFetchTar := 10 * gitserverAddrs.length }
    (Except.ok store, [.storeStart, .serverListen])

end Searcher

namespace Searcher

/-- Wrapping is the identity on values already in the signed 64-bit
range. -/
theorem wrapInt64_eq_self (x : Int)
    (h1 : -twoPow63 ≤ x) (h2 : x ≤ twoPow63 - 1) : wrapInt64 x = x := by
  unfold wrapInt64 twoPow63 at *
  omega

/-- C7 counterexample: the setting "9223372036854775807" parses as the
64-bit integer 2^63 - 1, but the configured byte bound is the wrapped
product -1000000, not 9223372036854775807 * 1000000: the multiplication
in main overflows int64, so the bound does not always equal the parsed
value times 1,000,000. -/
theorem cacheSizeBytes_overflow_counterexample :
    parseInt64 "9223372036854775807" = some 9223372036854775807 ∧
    computeCacheSizeBytes 9223372036854775807 = -1000000 ∧
    computeCacheSizeBytes 9223372036854775807 ≠ 9223372036854775807 * 1000000 := by
  refine ⟨by decide, by decide, by decide⟩

/-- C7 (amended): the configured byte bound is the two's-complement
64-bit wrap of (parsed MB value × 1000 × 1000); whenever the product
parsed × 1,000,000 fits in a signed 64-bit integer this equals
parsed × 1,000,000 exactly.  In particular the setting "0" parses to 0
and yields a bound of 0 bytes, the unbounded / eviction-disabled
configuration. -/
theorem cacheSizeBytes_eq_mb_times_million (i : Int)
    (h : |i * 1000000| ≤ twoPow63 - 1) :
    computeCacheSizeBytes i = i * 1000000 ∧
    parseInt64 "0" = some 0 ∧ computeCacheSizeBytes 0 = 0 := by
  refine ⟨?_, by decide, by decide⟩
  have habs : |i * 1000| * 1000 = |i * 1000000| := by
    rw [show i * 1000000 = (i * 1000) * 1000 by ring,
      abs_mul (i * 1000) 1000,
      abs_of_nonneg (show (0 : Int) ≤ 1000 by norm_num)]
  have hy : |i * 1000| ≤ twoPow63 - 1 := by
    have hle : |i * 1000| ≤ |i * 1000| * 1000 :=
      le_mul_of_one_le_right (abs_nonneg _) (by norm_num)
    rw [habs] at hle
    exact le_trans hle h
  have hy' := abs_le.mp hy
  have h' := abs_le.mp h
  unfold computeCacheSizeBytes
  rw [wrapInt64_eq_self (i * 1000) (by linarith [hy'.1]) hy'.2]
  rw [show i * 1000 * 1000 = i * 1000000 by ring]
  exact wrapInt64_eq_self _ (by linarith [h'.1]) h'.2

/-- Witness for the amended C7 at the parsed value 100: the bound is
100,000,000 bytes. -/
theorem cacheSizeBytes_eq_mb_times_million_witness :
    |(100 : Int) * 1000000| ≤ twoPow63 - 1 ∧
    (computeCacheSizeBytes 100 = 100 * 1000000 ∧
      parseInt64 "0" = some 0 ∧ computeCacheSizeBytes 0 = 0) :=
  ⟨by decide, cacheSizeBytes_eq_mb_times_million 100 (by decide)⟩

/-- C8: whenever startup succeeds, the configured bound on concurrent
fetches is exactly ten times the number of gitserver addresses. -/
theorem maxConcurrentFetchTar_ten_per_endpoint
    (cacheSizeMB : String) (addrs : List String) (dir : String)
    (st : StoreConfig)
    (h : (mainStartup cacheSizeMB addrs dir).1 = Except.ok st) :
    st.maxConcurrentFetchTar = 10 * addrs.length := by
  unfold mainStartup at h
  cases hp : parseInt64 cacheSizeMB with
  | none => rw [hp] at h; exact absurd h (by simp)
  | some i =>
    rw [hp] at h
    simp only at h
    rw [← Except.ok.inj h]

/-- Witness for C8: with two gitserver addresses the fetch bound is 20. -/
theorem maxConcurrentFetchTar_ten_per_endpoint_witness :
    (mainStartup "0" ["g1", "g2"] "/tmp").1 =
      Except.ok ⟨"/tmp/searcher-archives", 0, 20⟩ ∧
    (⟨"/tmp/searcher-archives", 0, 20⟩ : StoreConfig).maxConcurrentFetchTar =
      10 * (["g1", "g2"] : List String).length :=
  ⟨rfl, maxConcurrentFetchTar_ten_per_endpoint "0" ["g1", "g2"] "/tmp" _ rfl⟩

/-- C10: a SEARCHER_CACHE_SIZE_MB value that does not parse as a decimal
64-bit integer makes startup terminate fatally before any effectful
phase: the result is an error and neither the store start nor the server
listen event occurs. -/
theorem invalid_cache_size_is_fatal_before_serving
    (s : String) (addrs : List String) (dir : String)
    (h : parseInt64 s = none) :
    (∃ msg, (mainStartup s addrs dir).1 = Except.error msg) ∧
    (mainStartup s addrs dir).2 = [] := by
  unfold mainStartup
  rw [h]
  exact ⟨⟨_, rfl⟩, rfl⟩

/-- Witness for C10: the unparsable setting "12MB" is fatal and reaches
no effectful phase. -/
theorem invalid_cache_size_is_fatal_before_serving_witness :
    parseInt64 "12MB" = none ∧
    ((∃ msg, (mainStartup "12MB" ["g1"] "/tmp").1 = Except.error msg) ∧
      (mainStartup "12MB" ["g1"] "/tmp").2 = []) :=
  ⟨by decide, invalid_cache_size_is_fatal_before_serving "12MB" ["g1"] "/tmp" (by decide)⟩

end Searcher

namespace Searcher

/-- The shutdown grace period in seconds, from
context.WithTimeout(context.Background(), 10*time.Second) in
shutdownOnSIGINT. -/
def shutdownGraceSeconds : Nat := 10

/-- The HTTP server as seen by shutdown: whether it still accepts new
connections, and how many requests are in flight. -/
structure ServerModel where
  accepting : Bool
  inflight : Nat
deriving DecidableEq

/-- How the process ends after the interrupt signal: a graceful exit
with every request drained, or a fatal exit (log.Fatal) abandoning the
given number of unfinished requests. -/
inductive ProcessOutcome where
  | gracefulExit
  | fatalExit (abandoned : Nat)
deriving DecidableEq

/-- Modelled from the spec: the drain semantics of http.Server.Shutdown
(library code outside this repository).  Shutdown immediately stops
accepting new connections, then waits for in-flight requests; it
returns nil exactly when draining completes within the context
deadline.  Real time is abstracted to drainSeconds, the time the drain
would need.  The control flow around it is from shutdownOnSIGINT in
main.go: a nil result is a normal return, a non-nil result is
log.Fatal, terminating the process with the remaining requests
abandoned. -/
def shutdownOnSIGINT (srv : ServerModel) (drainSeconds : Nat) :
    ServerModel × ProcessOutcome :=
  let closed : ServerModel := { srv with accepting := false }
  if drainSeconds ≤ shutdownGraceSeconds then
    ({ closed with inflight := 0 }, .gracefulExit)
  else
    (closed, .fatalExit closed.inflight)

end Searcher

namespace Searcher

/-- C9: on an interrupt signal the server stops accepting new
connections; the grace period is exactly 10 seconds; if the drain
completes within it the process exits gracefully with zero requests in
flight, and otherwise the process terminates fatally, abandoning the
unfinished requests. -/
theorem shutdown_grace_period_ten_seconds
    (srv : ServerModel) (drainSeconds : Nat) :
    shutdownGraceSeconds = 10 ∧
    (shutdownOnSIGINT srv drainSeconds).1.accepting = false ∧
    (shutdownOnSIGINT srv drainSeconds).2 =
      (if drainSeconds ≤ 10 then .gracefulExit else .fatalExit srv.inflight) ∧
    (shutdownOnSIGINT srv drainSeconds).1.inflight =
      (if drainSeconds ≤ 10 then 0 else srv.inflight) := by
  unfold shutdownOnSIGINT shutdownGraceSeconds
  refine ⟨rfl, ?_, ?_, ?_⟩ <;> split <;> rfl

end Searcher

namespace Searcher

/-- Modelled from the spec: the ArchiveKey of the archive cache — the
immutable (repository identifier, commit identifier) pair.  The cache
implementation itself (the search.Store used by main) is not among the
visible source files, so the cache state machine below is modelled from
the data model and the Archive Cache contract of the specification. -/
structure ArchiveKey where
  repo : String
  commit : String
deriving DecidableEq

/-- Modelled from the spec: a CacheEntry's bookkeeping — size in bytes,
last-access timestamp, reference count.  The key is the association-list
position, the on-disk location is determined by the key. -/
structure CacheEntry where
  size : Nat
  lastAccess : Nat
  refCount : Nat
deriving DecidableEq

/-- Modelled from the spec: the shared cache index — the key→entry map,
the per-key in-flight FetchCoordinator records (key ↦ number of waiting
callers), the total-size counter, plus a counter of fetches started and
a logical clock for last-access stamps. -/
structure CacheState where
  entries : List (ArchiveKey × CacheEntry)
  coordinators : List (ArchiveKey × Nat)
  totalSize : Nat
  fetchCount : Nat
  clock : Nat
deriving DecidableEq

/-- Association-list lookup by key: the value at the first occurrence. -/
def findAssoc {β : Type} (l : List (ArchiveKey × β)) (k : ArchiveKey) : Option β :=
  (l.find? (fun p => decide (p.1 = k))).map (fun p => p.2)

/-- Association-list update of the first occurrence of a key. -/
def updateAssoc {β : Type} (k : ArchiveKey) (f : β → β) :
    List (ArchiveKey × β) → List (ArchiveKey × β)
  | [] => []
  | p :: t => if p.1 = k then (p.1, f p.2) :: t else p :: updateAssoc k f t

/-- The cache index entry for a key, if any. -/
def lookupEntry (s : CacheState) (k : ArchiveKey) : Option CacheEntry :=
  findAssoc s.entries k

/-- The waiter count of the in-flight FetchCoordinator for a key, if
one exists. -/
def lookupWaiters (s : CacheState) (k : ArchiveKey) : Option Nat :=
  findAssoc s.coordinators k

/-- Modelled from the spec: one acquisition's effect on the index.
Cache hit: increment the reference count and refresh the last-access
stamp, no fetch.  Cache miss with an in-flight coordinator: join its
waiter set, no new fetch.  Cache miss with no coordinator: register a
coordinator with one waiter and start a fetch (the single point of
mutual exclusion). -/
def acquireStep (s : CacheState) (k : ArchiveKey) : CacheState :=
  match lookupEntry s k with
  | some _ =>
    { s with
      entries := updateAssoc k
        (fun e => { e with refCount := e.refCount + 1, lastAccess := s.clock })
        s.entries
      clock := s.clock + 1 }
  | none =>
    match lookupWaiters s k with
    | some _ => { s with coordinators := updateAssoc k (fun w => w + 1) s.coordinators }
    | none =>
      { s with
        coordinators := (k, 1) :: s.coordinators
        fetchCount := s.fetchCount + 1 }

/-- n acquisitions for the same key, issued before the fetch resolves. -/
def acquireN (s : CacheState) (k : ArchiveKey) : Nat → CacheState
  | 0 => s
  | n + 1 => acquireN (acquireStep s k) k n

/-- The outcome one requester observes for its acquisition. -/
inductive AcquireOutcome where
  | view (k : ArchiveKey)
  | failed (msg : String)
deriving DecidableEq

/-- Modelled from the spec: resolution of the in-flight fetch for a key.
On success: insert a new CacheEntry (the index stays uniquely keyed, so
nothing is inserted over an existing entry), add its size to the total,
hand the view to every waiter, remove the coordinator record.  On
failure: hand the error to every waiter, remove the coordinator record,
leave the index and the size counter unchanged. -/
def resolveFetch (s : CacheState) (k : ArchiveKey) (out : Except String Nat) :
    CacheState × List AcquireOutcome :=
  let w := (lookupWaiters s k).getD 0
  let remaining := s.coordinators.eraseP (fun p => decide (p.1 = k))
  match out with
  | .ok size =>
    match lookupEntry s k with
    | some _ => ({ s with coordinators := remaining }, List.replicate w (.view k))
    | none =>
      ({ s with
          entries := (k, { size := size, lastAccess := s.clock, refCount := w }) :: s.entries
          coordinators := remaining
          totalSize := s.totalSize + size
          clock := s.clock + 1 },
        List.replicate w (.view k))
  | .error msg => ({ s with coordinators := remaining }, List.replicate w (.failed msg))

/-- Modelled from the spec: release decrements the reference count; at
zero the entry becomes eviction-eligible but is not removed. -/
def releaseStep (s : CacheState) (k : ArchiveKey) : CacheState :=
  { s with entries := updateAssoc k (fun e => { e with refCount := e.refCount - 1 }) s.entries }

/-- The eviction-eligible entries: reference count zero. -/
def evictionCandidates (l : List (ArchiveKey × CacheEntry)) :
    List (ArchiveKey × CacheEntry) :=
  l.filter (fun p => decide (p.2.refCount = 0))

/-- The less recently accessed of two entries. -/
def olderOf (a b : ArchiveKey × CacheEntry) : ArchiveKey × CacheEntry :=
  if a.2.lastAccess < b.2.lastAccess then a else b

/-- The least-recently-accessed entry of a list, if non-empty. -/
def leastRecent : List (ArchiveKey × CacheEntry) → Option (ArchiveKey × CacheEntry)
  | [] => none
  | x :: xs => some (xs.foldl olderOf x)

/-- Removal of one victim entry: drop it from the index and subtract
its size from the counter. -/
def removeVictim (s : CacheState) (v : ArchiveKey × CacheEntry) : CacheState :=
  { s with
    entries := s.entries.eraseP (fun p => decide (p = v))
    totalSize := s.totalSize - v.2.size }

/-- Modelled from the spec: the eviction pass.  While the tracked total
exceeds the configured maximum (0 meaning unbounded, eviction
disabled), remove the least-recently-accessed reference-count-zero
entry; stop when under the bound or no victim remains.  The fuel
argument bounds the loop by the entry count, which suffices since each
round removes one entry. -/
def evictLoop (maxSize : Nat) : Nat → CacheState → CacheState
  | 0, s => s
  | fuel + 1, s =>
    if maxSize = 0 then s
    else if s.totalSize ≤ maxSize then s
    else
      match leastRecent (evictionCandidates s.entries) with
      | none => s
      | some v => evictLoop maxSize fuel (removeVictim s v)

/-- The eviction pass over a cache state. -/
def evict (maxSize : Nat) (s : CacheState) : CacheState :=
  evictLoop maxSize s.entries.length s

/-- The operations that mutate the shared cache index. -/
inductive CacheOp where
  | acquire (k : ArchiveKey)
  | release (k : ArchiveKey)
  | resolveSuccess (k : ArchiveKey) (size : Nat)
  | resolveFailure (k : ArchiveKey) (msg : String)
  | evictPass (maxSize : Nat)
deriving DecidableEq

/-- One step of the cache state machine. -/
def step (s : CacheState) : CacheOp → CacheState
  | .acquire k => acquireStep s k
  | .release k => releaseStep s k
  | .resolveSuccess k size => (resolveFetch s k (Except.ok size)).1
  | .resolveFailure k msg => (resolveFetch s k (Except.error msg)).1
  | .evictPass maxSize => evict maxSize s

/-- An interleaving of cache operations, run left to right. -/
def run (s : CacheState) (ops : List CacheOp) : CacheState :=
  ops.foldl step s

end Searcher

namespace Searcher

/-- Lookup at the key just inserted at the head. -/
theorem findAssoc_cons_self {β : Type} (k : ArchiveKey) (v : β)
    (l : List (ArchiveKey × β)) : findAssoc ((k, v) :: l) k = some v := by
  simp [findAssoc]

/-- Lookup at another key skips the head. -/
theorem findAssoc_cons_ne {β : Type} (k k' : ArchiveKey) (v : β)
    (l : List (ArchiveKey × β)) (h : k ≠ k') :
    findAssoc ((k, v) :: l) k' = findAssoc l k' := by
  simp [findAssoc, List.find?_cons_of_neg, h]

/-- Updating a key rewrites exactly its looked-up value. -/
theorem findAssoc_updateAssoc_self {β : Type} (k : ArchiveKey) (f : β → β)
    (l : List (ArchiveKey × β)) :
    findAssoc (updateAssoc k f l) k = (findAssoc l k).map f := by
  induction l with
  | nil => rfl
  | cons p t ih =>
    by_cases h : p.1 = k
    · simp [updateAssoc, findAssoc, h]
    · simpa [updateAssoc, findAssoc, h] using ih

/-- Updating one key leaves every other key's lookup unchanged. -/
theorem findAssoc_updateAssoc_ne {β : Type} (k k' : ArchiveKey) (f : β → β)
    (l : List (ArchiveKey × β)) (h : k ≠ k') :
    findAssoc (updateAssoc k f l) k' = findAssoc l k' := by
  induction l with
  | nil => rfl
  | cons p t ih =>
    by_cases hp : p.1 = k
    · subst hp
      simp [updateAssoc, findAssoc, List.find?_cons_of_neg, h]
    · by_cases hp' : p.1 = k'
      · simp only [updateAssoc, if_neg hp]
        unfold findAssoc
        rw [List.find?_cons_of_pos _ (by simp [hp']),
          List.find?_cons_of_pos _ (by simp [hp'])]
      · simpa [updateAssoc, findAssoc, hp, hp'] using ih

/-- Erasing an element a search does not return keeps that search
result: the first q-match survives erasure of the first p-match when it
does not itself satisfy p. -/
theorem find?_eraseP_of_ne {α : Type} (l : List α) (q p : α → Bool) (x : α)
    (hq : l.find? q = some x) (hp : p x = false) :
    (l.eraseP p).find? q = some x := by
  induction l with
  | nil => cases hq
  | cons a t ih =>
    by_cases hqa : q a
    · have hx : a = x := by
        rw [List.find?_cons_of_pos _ hqa] at hq
        exact Option.some.inj hq
      subst hx
      rw [List.eraseP_cons_of_neg (by simp [hp]),
        List.find?_cons_of_pos _ hqa]
    · rw [List.find?_cons_of_neg _ hqa] at hq
      by_cases hpa : p a
      · rw [List.eraseP_cons_of_pos hpa]
        exact hq
      · rw [List.eraseP_cons_of_neg hpa,
          List.find?_cons_of_neg _ hqa]
        exact ih hq

/-- The folded minimum-by-last-access stays among the inputs. -/
theorem foldl_olderOf_mem (l : List (ArchiveKey × CacheEntry))
    (x : ArchiveKey × CacheEntry) : l.foldl olderOf x ∈ x :: l := by
  induction l generalizing x with
  | nil => simp
  | cons a t ih =>
    have h := ih (olderOf x a)
    simp only [List.foldl_cons]
    rcases List.mem_cons.mp h with h1 | h1
    · rw [h1]
      unfold olderOf
      split
      · exact List.mem_cons_self _ _
      · exact List.mem_cons_of_mem _ (List.mem_cons_self _ _)
    · exact List.mem_cons_of_mem _ (List.mem_cons_of_mem _ h1)

/-- A least-recent victim is one of the candidates. -/
theorem leastRecent_mem (l : List (ArchiveKey × CacheEntry))
    (v : ArchiveKey × CacheEntry) (h : leastRecent l = some v) : v ∈ l := by
  cases l with
  | nil => cases h
  | cons x xs =>
    have hv : xs.foldl olderOf x = v := Option.some.inj h
    rw [← hv]
    exact foldl_olderOf_mem xs x

/-- Every eviction candidate has reference count zero. -/
theorem evictionCandidates_refCount (l : List (ArchiveKey × CacheEntry))
    (p : ArchiveKey × CacheEntry) (h : p ∈ evictionCandidates l) :
    p.2.refCount = 0 := by
  have := (List.mem_filter.mp h).2
  exact of_decide_eq_true this

/-- An entry pinned by a positive reference count is untouched by any
number of eviction rounds. -/
theorem evictLoop_preserves_pinned (maxSize fuel : Nat) (s : CacheState)
    (k : ArchiveKey) (e : CacheEntry)
    (hfind : lookupEntry s k = some e) (hpin : 0 < e.refCount) :
    lookupEntry (evictLoop maxSize fuel s) k = some e := by
  induction fuel generalizing s with
  | zero => exact hfind
  | succ fuel ih =>
    unfold evictLoop
    split
    · exact hfind
    · split
      · exact hfind
      · cases hlr : leastRecent (evictionCandidates s.entries) with
        | none => exact hfind
        | some v =>
          refine ih (removeVictim s v) ?_
          obtain ⟨pr, hpr, hpr2⟩ := Option.map_eq_some'.mp hfind
          have hv0 : v.2.refCount = 0 :=
            evictionCandidates_refCount _ _ (leastRecent_mem _ _ hlr)
          have hne : decide (pr = v) = false := by
            refine decide_eq_false ?_
            intro hcontra
            have h0 : e.refCount = 0 := by rw [← hpr2, hcontra, hv0]
            omega
          show findAssoc (s.entries.eraseP (fun p => decide (p = v))) k = some e
          unfold findAssoc
          rw [find?_eraseP_of_ne s.entries _ _ pr hpr hne, Option.map_some']
          exact congrArg some hpr2

end Searcher

namespace Searcher

/-- A single cache operation other than a release of the key keeps a
pinned entry in the index with a positive reference count. -/
theorem step_preserves_pinned (s : CacheState) (op : CacheOp)
    (k : ArchiveKey) (e : CacheEntry)
    (hfind : lookupEntry s k = some e) (hpin : 0 < e.refCount)
    (hop : op ≠ CacheOp.release k) :
    ∃ e', lookupEntry (step s op) k = some e' ∧ 0 < e'.refCount := by
  cases op with
  | acquire k' =>
    show ∃ e', lookupEntry (acquireStep s k') k = some e' ∧ 0 < e'.refCount
    unfold acquireStep
    cases hk' : lookupEntry s k' with
    | some e'' =>
      by_cases hkk : k' = k
      · subst hkk
        refine ⟨{ e with refCount := e.refCount + 1, lastAccess := s.clock },
          ?_, Nat.succ_pos _⟩
        show findAssoc (updateAssoc k' _ s.entries) k' = _
        rw [findAssoc_updateAssoc_self,
          show findAssoc s.entries k' = some e from hfind]
        rfl
      · refine ⟨e, ?_, hpin⟩
        show findAssoc (updateAssoc k' _ s.entries) k = _
        rw [findAssoc_updateAssoc_ne k' k _ _ hkk]
        exact hfind
    | none =>
      cases lookupWaiters s k' with
      | some w => exact ⟨e, hfind, hpin⟩
      | none => exact ⟨e, hfind, hpin⟩
  | release k' =>
    have hkk : k' ≠ k := by
      intro hcontra
      exact hop (by rw [hcontra])
    refine ⟨e, ?_, hpin⟩
    show findAssoc (updateAssoc k' _ s.entries) k = _
    rw [findAssoc_updateAssoc_ne k' k _ _ hkk]
    exact hfind
  | resolveSuccess k' size =>
    show ∃ e', lookupEntry (resolveFetch s k' (Except.ok size)).1 k = some e' ∧
      0 < e'.refCount
    unfold resolveFetch
    cases hk' : lookupEntry s k' with
    | some e'' => exact ⟨e, hfind, hpin⟩
    | none =>
      have hkk : k' ≠ k := by
        intro hcontra
        rw [hcontra, hfind] at hk'
        cases hk'
      refine ⟨e, ?_, hpin⟩
      show findAssoc ((k', _) :: s.entries) k = _
      rw [findAssoc_cons_ne k' k _ _ hkk]
      exact hfind
  | resolveFailure k' msg => exact ⟨e, hfind, hpin⟩
  | evictPass maxSize =>
    exact ⟨e, evictLoop_preserves_pinned maxSize s.entries.length s k e hfind hpin, hpin⟩

/-- C5: an entry whose reference count is positive is never selected
for eviction or removed: under any interleaving of acquire, release,
resolve, and eviction operations that does not release the key, the
entry stays in the index with a positive reference count; in
particular no eviction pass inside the interleaving removes it. -/
theorem pinned_entry_never_evicted (s : CacheState) (ops : List CacheOp)
    (k : ArchiveKey) (e : CacheEntry)
    (hfind : lookupEntry s k = some e) (hpin : 0 < e.refCount)
    (hrel : ∀ op ∈ ops, op ≠ CacheOp.release k) :
    ∃ e', lookupEntry (run s ops) k = some e' ∧ 0 < e'.refCount := by
  induction ops generalizing s e with
  | nil => exact ⟨e, hfind, hpin⟩
  | cons op rest ih =>
    obtain ⟨e', hfind', hpin'⟩ :=
      step_preserves_pinned s op k e hfind hpin (hrel op (List.mem_cons_self _ _))
    exact ih (step s op) e' hfind' hpin'
      (fun o ho => hrel o (List.mem_cons_of_mem _ ho))

/-- Witness for C5: a pinned one-entry cache survives an eviction pass
run while over its size bound, an unrelated acquisition, and a release
of a different key. -/
theorem pinned_entry_never_evicted_witness :
    lookupEntry ⟨[(⟨"r", "c"⟩, ⟨5, 0, 1⟩)], [], 5, 0, 1⟩ ⟨"r", "c"⟩ =
      some ⟨5, 0, 1⟩ ∧
    0 < (⟨5, 0, 1⟩ : CacheEntry).refCount ∧
    (∀ op ∈ ([.evictPass 1, .acquire ⟨"r2", "c2"⟩,
        .release ⟨"r2", "c2"⟩] : List CacheOp),
      op ≠ CacheOp.release ⟨"r", "c"⟩) ∧
    ∃ e', lookupEntry (run ⟨[(⟨"r", "c"⟩, ⟨5, 0, 1⟩)], [], 5, 0, 1⟩
        [.evictPass 1, .acquire ⟨"r2", "c2"⟩, .release ⟨"r2", "c2"⟩])
        ⟨"r", "c"⟩ = some e' ∧ 0 < e'.refCount :=
  ⟨by decide, by decide, by decide,
    pinned_entry_never_evicted ⟨[(⟨"r", "c"⟩, ⟨5, 0, 1⟩)], [], 5, 0, 1⟩
      [.evictPass 1, .acquire ⟨"r2", "c2"⟩, .release ⟨"r2", "c2"⟩]
      ⟨"r", "c"⟩ ⟨5, 0, 1⟩ (by decide) (by decide) (by decide)⟩

/-- C6: resolving a fetch as failed changes neither the index nor the
total size counter: the entry list is exactly the one from before, so
the entry count is unchanged and no partial entry for the key exists
afterwards; only the coordinator record is removed. -/
theorem failed_fetch_leaves_cache_unchanged (s : CacheState)
    (k : ArchiveKey) (msg : String) :
    (resolveFetch s k (Except.error msg)).1.entries = s.entries ∧
    (resolveFetch s k (Except.error msg)).1.totalSize = s.totalSize ∧
    (resolveFetch s k (Except.error msg)).1.entries.length = s.entries.length ∧
    lookupEntry (resolveFetch s k (Except.error msg)).1 k = lookupEntry s k ∧
    (resolveFetch s k (Except.error msg)).1.coordinators =
      s.coordinators.eraseP (fun p => decide (p.1 = k)) :=
  ⟨rfl, rfl, rfl, rfl, rfl⟩

end Searcher

namespace Searcher

/-- Acquisitions that arrive while a coordinator is registered for the
key only join its waiter set: no new fetch starts, the index is
untouched, and the waiter count grows by exactly the number of
arrivals. -/
theorem acquireN_joins_waiters (k : ArchiveKey) (m : Nat) :
    ∀ (s : CacheState) (w : Nat),
      lookupEntry s k = none → lookupWaiters s k = some w →
      (acquireN s k m).fetchCount = s.fetchCount ∧
      (acquireN s k m).entries = s.entries ∧
      lookupWaiters (acquireN s k m) k = some (w + m) := by
  induction m with
  | zero =>
    intro s w hmiss hw
    exact ⟨rfl, rfl, by simpa using hw⟩
  | succ m ih =>
    intro s w hmiss hw
    have hstep : acquireStep s k =
        { s with coordinators := updateAssoc k (fun w => w + 1) s.coordinators } := by
      unfold acquireStep
      rw [hmiss, hw]
    show (acquireN (acquireStep s k) k m).fetchCount = s.fetchCount ∧
      (acquireN (acquireStep s k) k m).entries = s.entries ∧
      lookupWaiters (acquireN (acquireStep s k) k m) k = some (w + (m + 1))
    rw [hstep]
    have hmiss' : lookupEntry
        { s with coordinators := updateAssoc k (fun w => w + 1) s.coordinators } k =
        none := hmiss
    have hw' : lookupWaiters
        { s with coordinators := updateAssoc k (fun w => w + 1) s.coordinators } k =
        some (w + 1) := by
      show findAssoc (updateAssoc k (fun w => w + 1) s.coordinators) k = some (w + 1)
      rw [findAssoc_updateAssoc_self,
        show findAssoc s.coordinators k = some w from hw]
      rfl
    obtain ⟨h1, h2, h3⟩ := ih _ (w + 1) hmiss' hw'
    refine ⟨h1, h2, ?_⟩
    rw [h3]
    ring_nf

/-- Resolving the fetch for a key with w registered waiters hands out
exactly w outcomes, all equal, and does not change the fetch counter. -/
theorem resolveFetch_outcomes (t : CacheState) (k : ArchiveKey)
    (out : Except String Nat) (w : Nat)
    (hw : lookupWaiters t k = some w) :
    (resolveFetch t k out).1.fetchCount = t.fetchCount ∧
    (resolveFetch t k out).2.length = w ∧
    ∀ o1 ∈ (resolveFetch t k out).2,
      ∀ o2 ∈ (resolveFetch t k out).2, o1 = o2 := by
  unfold resolveFetch
  rw [hw]
  cases out with
  | ok size =>
    cases ht : lookupEntry t k with
    | some e =>
      refine ⟨rfl, List.length_replicate _ _, ?_⟩
      intro o1 h1 o2 h2
      rw [List.eq_of_mem_replicate h1, List.eq_of_mem_replicate h2]
    | none =>
      refine ⟨rfl, List.length_replicate _ _, ?_⟩
      intro o1 h1 o2 h2
      rw [List.eq_of_mem_replicate h1, List.eq_of_mem_replicate h2]
  | error msg =>
    refine ⟨rfl, List.length_replicate _ _, ?_⟩
    intro o1 h1 o2 h2
    rw [List.eq_of_mem_replicate h1, List.eq_of_mem_replicate h2]

/-- C4: issuing N ≥ 1 concurrent acquisitions for a key that is neither
cached nor already being fetched starts exactly one fetch (the fetch
counter rises by one over the whole burst and stays there through
resolution), and resolving that single fetch delivers exactly N
outcomes, all equal: every requester observes the same success or
failure result. -/
theorem concurrent_acquisitions_single_fetch
    (s : CacheState) (k : ArchiveKey) (n : Nat) (out : Except String Nat)
    (hn : 1 ≤ n)
    (hmiss : lookupEntry s k = none)
    (hnoc : lookupWaiters s k = none) :
    (acquireN s k n).fetchCount = s.fetchCount + 1 ∧
    (resolveFetch (acquireN s k n) k out).1.fetchCount = s.fetchCount + 1 ∧
    (resolveFetch (acquireN s k n) k out).2.length = n ∧
    ∀ o1 ∈ (resolveFetch (acquireN s k n) k out).2,
      ∀ o2 ∈ (resolveFetch (acquireN s k n) k out).2, o1 = o2 := by
  obtain ⟨m, rfl⟩ : ∃ m, n = m + 1 := ⟨n - 1, by omega⟩
  have hstep : acquireStep s k =
      { s with coordinators := (k, 1) :: s.coordinators
               fetchCount := s.fetchCount + 1 } := by
    unfold acquireStep
    rw [hmiss, hnoc]
  have hN : acquireN s k (m + 1) = acquireN (acquireStep s k) k m := rfl
  rw [hN, hstep]
  set s1 : CacheState :=
    { s with coordinators := (k, 1) :: s.coordinators
             fetchCount := s.fetchCount + 1 } with hs1
  have hmiss1 : lookupEntry s1 k = none := hmiss
  have hw1 : lookupWaiters s1 k = some 1 := findAssoc_cons_self k 1 s.coordinators
  obtain ⟨h1, h2, h3⟩ := acquireN_joins_waiters k m s1 1 hmiss1 hw1
  have hmissN : lookupEntry (acquireN s1 k m) k = none := by
    show findAssoc (acquireN s1 k m).entries k = none
    rw [h2]
    exact hmiss
  have hfc : (acquireN s1 k m).fetchCount = s.fetchCount + 1 := by
    rw [h1]
  obtain ⟨hra, hrb, hrc⟩ := resolveFetch_outcomes (acquireN s1 k m) k out (1 + m) h3
  refine ⟨hfc, ?_, ?_, hrc⟩
  · rw [hra, hfc]
  · rw [hrb]
    omega

/-- Witness for C4: three concurrent acquisitions of an uncached key on
the empty cache trigger exactly one fetch and three identical
outcomes. -/
theorem concurrent_acquisitions_single_fetch_witness :
    1 ≤ 3 ∧
    lookupEntry ⟨[], [], 0, 0, 0⟩ ⟨"r", "c"⟩ = none ∧
    lookupWaiters ⟨[], [], 0, 0, 0⟩ ⟨"r", "c"⟩ = none ∧
    ((acquireN ⟨[], [], 0, 0, 0⟩ ⟨"r", "c"⟩ 3).fetchCount = 0 + 1 ∧
      (resolveFetch (acquireN ⟨[], [], 0, 0, 0⟩ ⟨"r", "c"⟩ 3) ⟨"r", "c"⟩
        (Except.ok 7)).1.fetchCount = 0 + 1 ∧
      (resolveFetch (acquireN ⟨[], [], 0, 0, 0⟩ ⟨"r", "c"⟩ 3) ⟨"r", "c"⟩
        (Except.ok 7)).2.length = 3 ∧
      ∀ o1 ∈ (resolveFetch (acquireN ⟨[], [], 0, 0, 0⟩ ⟨"r", "c"⟩ 3) ⟨"r", "c"⟩
          (Except.ok 7)).2,
        ∀ o2 ∈ (resolveFetch (acquireN ⟨[], [], 0, 0, 0⟩ ⟨"r", "c"⟩ 3) ⟨"r", "c"⟩
          (Except.ok 7)).2, o1 = o2) :=
  ⟨by decide, by decide, by decide,
    concurrent_acquisitions_single_fetch ⟨[], [], 0, 0, 0⟩ ⟨"r", "c"⟩ 3
      (Except.ok 7) (by decide) (by decide) (by decide)⟩

end Searcher
